import Mathlib

/-!
Verification of the scoring engine of the ilmiy-baholash system
(`src/core.py`, with the data shapes of `src/models.py`).

The engine is a pure function from a scoring request to a scoring result.
Python floats are embedded as rationals (`ℚ`); `round(x, 3)` is embedded as
`round3` below (rounding to the nearest multiple of `1/1000`; Python rounds
half-way cases to even, this embedding rounds them up — no theorem in this
file depends on an exact half-way case).  Fallible code (`raise ValueError`)
is embedded as `Except String`.
-/

namespace Core

/-- Embedding of `models.Indicator`.  In `models.py` the `block` field is a
`Literal["R","P","O","I"]`, but `core.evaluate` contains its own defensive
check of the block code, so the core-level embedding keeps it a `String`. -/
structure Indicator where
  id : String
  name : String
  block : String
  value : ℚ
  min_value : ℚ
  max_value : ℚ
  weight : ℚ
  is_benefit : Bool := true
deriving DecidableEq, Repr

/-- Embedding of `models.BlockWeights` (defaults `0.25` each). -/
structure BlockWeights where
  alpha_R : ℚ := 1/4
  alpha_P : ℚ := 1/4
  alpha_O : ℚ := 1/4
  alpha_I : ℚ := 1/4
deriving DecidableEq, Repr

/-- Embedding of `models.EvaluationRequest`. -/
structure EvaluationRequest where
  tashkilot : Option String := none
  yil : Option Int := none
  indicators : List Indicator
  block_weights : BlockWeights
deriving DecidableEq, Repr

/-- Embedding of `models.BlockIndex`.  The Python `indicators` dict is
embedded as the association list of `(id, normalized value)` pairs in
insertion order. -/
structure BlockIndex where
  block : String
  value : ℚ
  indicators : List (String × ℚ)
deriving DecidableEq, Repr

/-- Embedding of `models.EvaluationResult` (the `level`, `weakest_block` and
`strongest_block` fields are `Optional` in the pydantic model). -/
structure EvaluationResult where
  tashkilot : Option String := none
  yil : Option Int := none
  total_index : ℚ
  blocks : List BlockIndex
  level : Option String := none
  weakest_block : Option String := none
  strongest_block : Option String := none
deriving DecidableEq, Repr

/-- Embedding of Python `round(x, 3)`: round to the nearest multiple of
`1/1000` (`round` on `ℚ` sends a half-way point up where Python sends it to
the nearest even multiple; no claim below evaluates at a half-way point). -/
def round3 (x : ℚ) : ℚ := (round (1000 * x) : ℤ) / 1000

/-- Embedding of `core.normalize`: scale `value` into `[0,1]` by the declared
bounds, invert for a cost indicator, clamp to `[0,1]`; degenerate equal
bounds return `0`. -/
def normalize (ind : Indicator) : ℚ :=
  if ind.max_value = ind.min_value then 0
  else
    let z := (ind.value - ind.min_value) / (ind.max_value - ind.min_value)
    let z := if ind.is_benefit then z else 1 - z
    max 0 (min 1 z)

/-- Embedding of `core.classify_level`: half-open tiers with inclusive lower
bounds, labels as in the source ("Past" = Low, "O‘rtacha" = Medium,
"Yuqori" = High, "Juda yuqori" = Very High). -/
def classify_level (total_index : ℚ) : String :=
  if total_index < 1/4 then "Past"
  else if total_index < 1/2 then "O‘rtacha"
  else if total_index < 3/4 then "Yuqori"
  else "Juda yuqori"

/-- The four block codes, in the fixed iteration order of the
`block_groups` dict in `core.evaluate`. -/
def blockCodes : List String := ["R", "P", "O", "I"]

/-- Error message of `core.evaluate` for an unrecognized block code
(`f"Noma'lum blok kodi: {ind.block}"`). -/
def badBlockMsg (code : String) : String := "Noma\x27lum blok kodi: " ++ code

/-- The grouping loop of `core.evaluate`, restricted to its fallible part:
first indicator whose block code is not one of the four recognized ones
aborts the computation. -/
def checkBlocks : List Indicator → Except String Unit
  | [] => Except.ok ()
  | ind :: rest =>
    if ind.block ∈ blockCodes then checkBlocks rest
    else Except.error (badBlockMsg ind.block)

/-- The indicators a request assigns to one block, in request order (the
grouping loop of `core.evaluate` appends in request order). -/
def categoryOf (req : EvaluationRequest) (code : String) : List Indicator :=
  req.indicators.filter (fun i => decide (i.block = code))

/-- `weight_sum` of the per-block loop in `core.evaluate`. -/
def weightSum (inds : List Indicator) : ℚ :=
  (inds.map Indicator.weight).sum

/-- `block_sum` of the per-block loop in `core.evaluate`
(`block_sum += z * ind.weight`). -/
def weightedNormSum (inds : List Indicator) : ℚ :=
  (inds.map (fun i => normalize i * i.weight)).sum

/-- `block_index_value` of `core.evaluate`: a guarded weighted mean.  (An
empty block takes the `continue` branch in the source and is assigned `0.0`
directly; its `weight_sum` is `0`, so this single formula covers it.) -/
def blockIndexValue (inds : List Indicator) : ℚ :=
  if weightSum inds > 0 then weightedNormSum inds / weightSum inds else 0

/-- `norm_values` of the per-block loop: the id ↦ normalized-value mapping,
as an association list in insertion order. -/
def normMap (inds : List Indicator) : List (String × ℚ) :=
  inds.map (fun i => (i.id, normalize i))

/-- The `BlockIndex` record `core.evaluate` appends for one block (value
rounded to 3 decimal places on emission). -/
def mkBlockIndex (req : EvaluationRequest) (code : String) : BlockIndex :=
  { block := code
    value := round3 (blockIndexValue (categoryOf req code))
    indicators := normMap (categoryOf req code) }

/-- The `block_values` dict of `core.evaluate` (code ↦ unrounded block
index), as an association list in the fixed order R, P, O, I. -/
def blockValuesList (req : EvaluationRequest) : List (String × ℚ) :=
  blockCodes.map (fun c => (c, blockIndexValue (categoryOf req c)))

/-- `total_index_raw` of `core.evaluate`: the weighted sum of the four
(unrounded) block values. -/
def totalRaw (req : EvaluationRequest) : ℚ :=
  req.block_weights.alpha_R * blockIndexValue (categoryOf req "R")
    + req.block_weights.alpha_P * blockIndexValue (categoryOf req "P")
    + req.block_weights.alpha_O * blockIndexValue (categoryOf req "O")
    + req.block_weights.alpha_I * blockIndexValue (categoryOf req "I")

/-- Linear scan keeping the first-seen minimum, replacing only on strict
improvement: the behavior of Python `min(d, key=d.get)` over the remaining
pairs, given a current best `(c, v)`. -/
def firstArgminAux (c : String) (v : ℚ) : List (String × ℚ) → String
  | [] => c
  | (c2, v2) :: rest =>
    if v2 < v then firstArgminAux c2 v2 rest else firstArgminAux c v rest

/-- Embedding of `min(block_values, key=block_values.get)`, guarded by the
`if block_values:` check of the source (empty mapping yields `""`). -/
def firstArgmin : List (String × ℚ) → String
  | [] => ""
  | (c, v) :: rest => firstArgminAux c v rest

/-- Linear scan keeping the first-seen maximum, replacing only on strict
improvement: the behavior of Python `max(d, key=d.get)`. -/
def firstArgmaxAux (c : String) (v : ℚ) : List (String × ℚ) → String
  | [] => c
  | (c2, v2) :: rest =>
    if v2 > v then firstArgmaxAux c2 v2 rest else firstArgmaxAux c v rest

/-- Embedding of `max(block_values, key=block_values.get)`, guarded by the
`if block_values:` check of the source. -/
def firstArgmax : List (String × ℚ) → String
  | [] => ""
  | (c, v) :: rest => firstArgmaxAux c v rest

/-- The infallible tail of `core.evaluate` (steps 2–6 of the source), run
once the grouping loop has accepted every block code. -/
def computeResult (req : EvaluationRequest) : EvaluationResult :=
  let total_index := round3 (totalRaw req)
  let weakest := firstArgmin (blockValuesList req)
  let strongest := firstArgmax (blockValuesList req)
  { tashkilot := req.tashkilot
    yil := req.yil
    total_index := total_index
    blocks := blockCodes.map (mkBlockIndex req)
    level := some (classify_level total_index)
    weakest_block := if weakest = "" then none else some weakest
    strongest_block := if strongest = "" then none else some strongest }

/-- Embedding of `core.evaluate`: fail on the first unrecognized block code
with no partial result, otherwise produce the full result. -/
def evaluate (req : EvaluationRequest) : Except String EvaluationResult :=
  match checkBlocks req.indicators with
  | Except.error e => Except.error e
  | Except.ok _ => Except.ok (computeResult req)

/-- The overall index as the specification sentence reads it: category
weights applied to the ROUNDED category index values emitted per §4.2, with
the sum itself rounded to 3 decimal places.  Follows the spec claim's words,
for comparison with `totalRaw` (which the source feeds from the unrounded
`block_values` dict). -/
def specTotalFromRounded (req : EvaluationRequest) : ℚ :=
  round3 (req.block_weights.alpha_R * round3 (blockIndexValue (categoryOf req "R"))
    + req.block_weights.alpha_P * round3 (blockIndexValue (categoryOf req "P"))
    + req.block_weights.alpha_O * round3 (blockIndexValue (categoryOf req "O"))
    + req.block_weights.alpha_I * round3 (blockIndexValue (categoryOf req "I")))

/-- `c` is the first category in the fixed order R, P, O, I whose value
attains the minimum of the four: it attains the minimum, and every category
strictly earlier in the order has a strictly larger value. -/
def firstAttainsMin (vR vP vO vI : ℚ) (c : String) : Prop :=
  (c = "R" ∧ vR ≤ vP ∧ vR ≤ vO ∧ vR ≤ vI) ∨
  (c = "P" ∧ vP < vR ∧ vP ≤ vO ∧ vP ≤ vI) ∨
  (c = "O" ∧ vO < vR ∧ vO < vP ∧ vO ≤ vI) ∨
  (c = "I" ∧ vI < vR ∧ vI < vP ∧ vI < vO)

/-- `c` is the first category in the fixed order R, P, O, I whose value
attains the maximum of the four. -/
def firstAttainsMax (vR vP vO vI : ℚ) (c : String) : Prop :=
  (c = "R" ∧ vP ≤ vR ∧ vO ≤ vR ∧ vI ≤ vR) ∨
  (c = "P" ∧ vR < vP ∧ vO ≤ vP ∧ vI ≤ vP) ∨
  (c = "O" ∧ vR < vO ∧ vP < vO ∧ vI ≤ vO) ∨
  (c = "I" ∧ vR < vI ∧ vP < vI ∧ vO < vI)

/-- R indicator of the end-to-end scenario (value 80 of 0..100, weight 1). -/
def ind7R : Indicator :=
  { id := "R1", name := "r", block := "R", value := 80, min_value := 0, max_value := 100, weight := 1 }

/-- P indicator of the end-to-end scenario (value 20 of 0..100, weight 1). -/
def ind7P : Indicator :=
  { id := "P1", name := "p", block := "P", value := 20, min_value := 0, max_value := 100, weight := 1 }

/-- O indicator of the end-to-end scenario (value 50 of 0..100, weight 1). -/
def ind7O : Indicator :=
  { id := "O1", name := "o", block := "O", value := 50, min_value := 0, max_value := 100, weight := 1 }

/-- I indicator of the end-to-end scenario (value 0 of 0..100, weight 1). -/
def ind7I : Indicator :=
  { id := "I1", name := "i", block := "I", value := 0, min_value := 0, max_value := 100, weight := 1 }

/-- Request of the end-to-end scenario: one benefit indicator per category,
bounds 0..100, weight 1, values 80 / 20 / 50 / 0, block weights 0.25 each. -/
def req7 : EvaluationRequest :=
  { indicators := [ind7R, ind7P, ind7O, ind7I]
    block_weights := {} }

/-- Expected result of the end-to-end scenario. -/
def res7 : EvaluationResult :=
  { tashkilot := none
    yil := none
    total_index := 3/8
    blocks :=
      [ { block := "R", value := 4/5, indicators := [("R1", 4/5)] }
      , { block := "P", value := 1/5, indicators := [("P1", 1/5)] }
      , { block := "O", value := 1/2, indicators := [("O1", 1/2)] }
      , { block := "I", value := 0, indicators := [("I1", 0)] } ]
    level := some "O‘rtacha"
    weakest_block := some "I"
    strongest_block := some "R" }

/-- R indicator with normalized value exactly `0.3334`: the rounded block
value (`0.333`) differs from the unrounded one, so two such blocks with
unit weights separate a rounded-inputs total (`0.666`) from the rounded
total of the unrounded inputs (`0.667`). -/
def indRoundR : Indicator :=
  { id := "R1", name := "r", block := "R", value := 3334, min_value := 0, max_value := 10000, weight := 1 }

/-- P indicator with normalized value exactly `0.3334`. -/
def indRoundP : Indicator :=
  { id := "P1", name := "p", block := "P", value := 3334, min_value := 0, max_value := 10000, weight := 1 }

/-- The request built from `indRoundR` and `indRoundP` with unit weights on
R and P. -/
def reqRound : EvaluationRequest :=
  { indicators := [indRoundR, indRoundP]
    block_weights := { alpha_R := 1, alpha_P := 1, alpha_O := 0, alpha_I := 0 } }

/-- R indicator normalizing to `0.25`; under block weight 8 the overall
index becomes `2.0`, outside `[0,1]`, showing the absence of a final
clamp. -/
def indBigR : Indicator :=
  { id := "R1", name := "r", block := "R", value := 25, min_value := 0, max_value := 100, weight := 1 }

/-- The request putting block weight 8 on `indBigR`. -/
def reqBig : EvaluationRequest :=
  { indicators := [indBigR]
    block_weights := { alpha_R := 8, alpha_P := 0, alpha_O := 0, alpha_I := 0 } }

/-- R indicator normalizing to `0.2496`: the raw weighted total it induces
is strictly below `0.25` but at least `0.2495`, so it rounds up to
`0.25`. -/
def ind9R : Indicator :=
  { id := "R1", name := "r", block := "R", value := 2496, min_value := 0, max_value := 10000, weight := 1 }

/-- The request putting unit block weight on `ind9R` alone. -/
def req9 : EvaluationRequest :=
  { indicators := [ind9R]
    block_weights := { alpha_R := 1, alpha_P := 0, alpha_O := 0, alpha_I := 0 } }

/-- An indicator with unrecognized block code `"X"`. -/
def indBadX : Indicator :=
  { id := "X1", name := "x", block := "X", value := 1, min_value := 0, max_value := 2, weight := 1 }

/-- Request containing an indicator with unrecognized block code `"X"`. -/
def reqBad : EvaluationRequest :=
  { indicators := [indBadX]
    block_weights := {} }

/-- First R indicator of `reqC2` (normalized value 1/2, weight 2); the
request exercises the three per-category cases at once: R has two weighted
indicators (weighted mean 2/3), P has one indicator of weight 0, O and I
are empty. -/
def indC2R1 : Indicator :=
  { id := "R1", name := "r1", block := "R", value := 50, min_value := 0, max_value := 100, weight := 2 }

/-- Second R indicator of `reqC2` (normalized value 1, weight 1). -/
def indC2R2 : Indicator :=
  { id := "R2", name := "r2", block := "R", value := 100, min_value := 0, max_value := 100, weight := 1 }

/-- P indicator of `reqC2` with weight 0. -/
def indC2P1 : Indicator :=
  { id := "P1", name := "p1", block := "P", value := 30, min_value := 0, max_value := 100, weight := 0 }

/-- The request grouping `indC2R1`, `indC2R2` and `indC2P1`. -/
def reqC2 : EvaluationRequest :=
  { indicators := [indC2R1, indC2R2, indC2P1]
    block_weights := {} }

/-- R indicator of the tie-break request `reqC6` (normalized value 1/2):
in `reqC6`, R and P tie for the minimum block index and I holds the
maximum. -/
def indC6R : Indicator :=
  { id := "R1", name := "r", block := "R", value := 50, min_value := 0, max_value := 100, weight := 1 }

/-- P indicator of `reqC6` (normalized value 1/2, tying with R). -/
def indC6P : Indicator :=
  { id := "P1", name := "p", block := "P", value := 50, min_value := 0, max_value := 100, weight := 1 }

/-- O indicator of `reqC6` (normalized value 7/10). -/
def indC6O : Indicator :=
  { id := "O1", name := "o", block := "O", value := 70, min_value := 0, max_value := 100, weight := 1 }

/-- I indicator of `reqC6` (normalized value 9/10, the maximum). -/
def indC6I : Indicator :=
  { id := "I1", name := "i", block := "I", value := 90, min_value := 0, max_value := 100, weight := 1 }

/-- The request grouping the four `reqC6` indicators. -/
def reqC6 : EvaluationRequest :=
  { indicators := [indC6R, indC6P, indC6O, indC6I]
    block_weights := {} }

/-- Request with no indicators at all: every category is empty, yet all four
block values exist (all `0`), so the extremal fields are still populated. -/
def reqEmpty : EvaluationRequest :=
  { indicators := []
    block_weights := {} }

/-- Expected result for `reqC2`. -/
def resC2 : EvaluationResult :=
  { tashkilot := none
    yil := none
    total_index := 167/1000
    blocks :=
      [ { block := "R", value := 667/1000, indicators := [("R1", 1/2), ("R2", 1)] }
      , { block := "P", value := 0, indicators := [("P1", 3/10)] }
      , { block := "O", value := 0, indicators := [] }
      , { block := "I", value := 0, indicators := [] } ]
    level := some "Past"
    weakest_block := some "P"
    strongest_block := some "R" }

/-- Expected result for `reqC6`: the R-P tie for the minimum resolves to R. -/
def resC6 : EvaluationResult :=
  { tashkilot := none
    yil := none
    total_index := 13/20
    blocks :=
      [ { block := "R", value := 1/2, indicators := [("R1", 1/2)] }
      , { block := "P", value := 1/2, indicators := [("P1", 1/2)] }
      , { block := "O", value := 7/10, indicators := [("O1", 7/10)] }
      , { block := "I", value := 9/10, indicators := [("I1", 9/10)] } ]
    level := some "Yuqori"
    weakest_block := some "R"
    strongest_block := some "I" }

/-- Expected result for `reqEmpty`: all four block values are `0`, and the
four-way tie resolves both extremals to R. -/
def resEmpty : EvaluationResult :=
  { tashkilot := none
    yil := none
    total_index := 0
    blocks :=
      [ { block := "R", value := 0, indicators := [] }
      , { block := "P", value := 0, indicators := [] }
      , { block := "O", value := 0, indicators := [] }
      , { block := "I", value := 0, indicators := [] } ]
    level := some "Past"
    weakest_block := some "R"
    strongest_block := some "R" }

/-- A cost indicator with bounds `0 < 10`, sitting at its minimum. -/
def indCost : Indicator :=
  { id := "R9", name := "cost", block := "R", value := 0, min_value := 0, max_value := 10,
    weight := 1, is_benefit := false }

/-- An indicator with degenerate equal bounds, raw value far outside them. -/
def indDegenerate : Indicator :=
  { id := "P9", name := "deg", block := "P", value := 42, min_value := 5, max_value := 5,
    weight := 1, is_benefit := false }

lemma checkBlocks_ok_iff (inds : List Indicator) :
    checkBlocks inds = Except.ok () ↔ ∀ ind ∈ inds, ind.block ∈ blockCodes := by
  induction inds with
  | nil => simp [checkBlocks]
  | cons a l ih =>
    by_cases ha : a.block ∈ blockCodes
    · simp [checkBlocks, ha, ih]
    · simp [checkBlocks, ha]

lemma checkBlocks_error (inds : List Indicator) (e : String)
    (h : checkBlocks inds = Except.error e) :
    ∃ ind ∈ inds, ind.block ∉ blockCodes ∧ e = badBlockMsg ind.block := by
  induction inds with
  | nil => simp [checkBlocks] at h
  | cons a l ih =>
    by_cases ha : a.block ∈ blockCodes
    · rw [checkBlocks, if_pos ha] at h
      obtain ⟨i, hi, hb, he⟩ := ih h
      exact ⟨i, List.mem_cons_of_mem a hi, hb, he⟩
    · rw [checkBlocks, if_neg ha] at h
      injection h with h
      exact ⟨a, List.mem_cons_self a l, ha, h.symm⟩

lemma evaluate_eq_ok (req : EvaluationRequest)
    (h : ∀ ind ∈ req.indicators, ind.block ∈ blockCodes) :
    evaluate req = Except.ok (computeResult req) := by
  unfold evaluate
  rw [(checkBlocks_ok_iff req.indicators).mpr h]

lemma evaluate_ok_elim (req : EvaluationRequest) (res : EvaluationResult)
    (h : evaluate req = Except.ok res) : res = computeResult req := by
  unfold evaluate at h
  cases hcb : checkBlocks req.indicators with
  | error e => rw [hcb] at h; exact absurd h (by simp)
  | ok u => rw [hcb] at h; exact (Except.ok.inj h).symm

lemma evaluate_ok_iff (req : EvaluationRequest) :
    (∃ r, evaluate req = Except.ok r) ↔ ∀ ind ∈ req.indicators, ind.block ∈ blockCodes := by
  rw [← checkBlocks_ok_iff]
  unfold evaluate
  cases hcb : checkBlocks req.indicators with
  | error e => simp
  | ok u => cases u; simp

lemma evaluate_error_elim (req : EvaluationRequest) (e : String)
    (h : evaluate req = Except.error e) :
    ∃ ind ∈ req.indicators, ind.block ∉ blockCodes ∧ e = badBlockMsg ind.block := by
  unfold evaluate at h
  cases hcb : checkBlocks req.indicators with
  | error e2 =>
    rw [hcb] at h
    exact (Except.error.inj h) ▸ checkBlocks_error req.indicators e2 hcb
  | ok u => rw [hcb] at h; exact absurd h (by simp)

lemma lookup_normMap (g : List Indicator) (hnd : (g.map Indicator.id).Nodup)
    (ind : Indicator) (hmem : ind ∈ g) :
    (normMap g).lookup ind.id = some (normalize ind) := by
  induction g with
  | nil => cases hmem
  | cons a l ih =>
    rw [List.map_cons, List.nodup_cons] at hnd
    rcases List.mem_cons.mp hmem with rfl | hmem2
    · simp [normMap, List.lookup]
    · have hne : ind.id ≠ a.id := by
        intro he
        exact hnd.1 (he ▸ List.mem_map_of_mem Indicator.id hmem2)
      simp only [normMap, List.map_cons, List.lookup]
      have hbeq : (ind.id == a.id) = false := beq_eq_false_iff_ne.mpr hne
      rw [hbeq]
      exact ih hnd.2 hmem2

lemma firstArgmin_spec (vR vP vO vI : ℚ) :
    firstAttainsMin vR vP vO vI
      (firstArgmin [("R", vR), ("P", vP), ("O", vO), ("I", vI)]) := by
  simp only [firstArgmin, firstArgminAux]
  split_ifs <;>
    first
      | exact Or.inl ⟨rfl, by linarith, by linarith, by linarith⟩
      | exact Or.inr (Or.inl ⟨rfl, by linarith, by linarith, by linarith⟩)
      | exact Or.inr (Or.inr (Or.inl ⟨rfl, by linarith, by linarith, by linarith⟩))
      | exact Or.inr (Or.inr (Or.inr ⟨rfl, by linarith, by linarith, by linarith⟩))

lemma firstArgmax_spec (vR vP vO vI : ℚ) :
    firstAttainsMax vR vP vO vI
      (firstArgmax [("R", vR), ("P", vP), ("O", vO), ("I", vI)]) := by
  simp only [firstArgmax, firstArgmaxAux]
  split_ifs <;>
    first
      | exact Or.inl ⟨rfl, by linarith, by linarith, by linarith⟩
      | exact Or.inr (Or.inl ⟨rfl, by linarith, by linarith, by linarith⟩)
      | exact Or.inr (Or.inr (Or.inl ⟨rfl, by linarith, by linarith, by linarith⟩))
      | exact Or.inr (Or.inr (Or.inr ⟨rfl, by linarith, by linarith, by linarith⟩))

lemma firstAttainsMin_mem {vR vP vO vI : ℚ} {c : String}
    (h : firstAttainsMin vR vP vO vI c) : c ∈ blockCodes := by
  rcases h with ⟨rfl, -⟩ | ⟨rfl, -⟩ | ⟨rfl, -⟩ | ⟨rfl, -⟩ <;> decide

lemma firstAttainsMax_mem {vR vP vO vI : ℚ} {c : String}
    (h : firstAttainsMax vR vP vO vI c) : c ∈ blockCodes := by
  rcases h with ⟨rfl, -⟩ | ⟨rfl, -⟩ | ⟨rfl, -⟩ | ⟨rfl, -⟩ <;> decide

lemma firstAttainsMin_ne_empty {vR vP vO vI : ℚ} {c : String}
    (h : firstAttainsMin vR vP vO vI c) : c ≠ "" := by
  rcases h with ⟨rfl, -⟩ | ⟨rfl, -⟩ | ⟨rfl, -⟩ | ⟨rfl, -⟩ <;> decide

lemma firstAttainsMax_ne_empty {vR vP vO vI : ℚ} {c : String}
    (h : firstAttainsMax vR vP vO vI c) : c ≠ "" := by
  rcases h with ⟨rfl, -⟩ | ⟨rfl, -⟩ | ⟨rfl, -⟩ | ⟨rfl, -⟩ <;> decide

lemma blockValuesList_eq (req : EvaluationRequest) :
    blockValuesList req =
      [ ("R", blockIndexValue (categoryOf req "R"))
      , ("P", blockIndexValue (categoryOf req "P"))
      , ("O", blockIndexValue (categoryOf req "O"))
      , ("I", blockIndexValue (categoryOf req "I")) ] := rfl

lemma weakest_block_computeResult (req : EvaluationRequest) :
    (computeResult req).weakest_block =
      (if firstArgmin (blockValuesList req) = "" then none
       else some (firstArgmin (blockValuesList req))) := rfl

lemma strongest_block_computeResult (req : EvaluationRequest) :
    (computeResult req).strongest_block =
      (if firstArgmax (blockValuesList req) = "" then none
       else some (firstArgmax (blockValuesList req))) := rfl

lemma firstArgmin_bvl_spec (req : EvaluationRequest) :
    firstAttainsMin (blockIndexValue (categoryOf req "R"))
      (blockIndexValue (categoryOf req "P")) (blockIndexValue (categoryOf req "O"))
      (blockIndexValue (categoryOf req "I")) (firstArgmin (blockValuesList req)) := by
  rw [blockValuesList_eq]
  exact firstArgmin_spec _ _ _ _

lemma firstArgmax_bvl_spec (req : EvaluationRequest) :
    firstAttainsMax (blockIndexValue (categoryOf req "R"))
      (blockIndexValue (categoryOf req "P")) (blockIndexValue (categoryOf req "O"))
      (blockIndexValue (categoryOf req "I")) (firstArgmax (blockValuesList req)) := by
  rw [blockValuesList_eq]
  exact firstArgmax_spec _ _ _ _

/-- The four-entry `block_values` dict is never empty, so the defensive
empty-dict branch never fires: `computeResult` always populates both
extremal fields. -/
lemma computeResult_eq_mk (req : EvaluationRequest) :
    computeResult req =
      { tashkilot := req.tashkilot
        yil := req.yil
        total_index := round3 (totalRaw req)
        blocks := blockCodes.map (mkBlockIndex req)
        level := some (classify_level (round3 (totalRaw req)))
        weakest_block := some (firstArgmin (blockValuesList req))
        strongest_block := some (firstArgmax (blockValuesList req)) } := by
  have h1 : firstArgmin (blockValuesList req) ≠ "" :=
    firstAttainsMin_ne_empty (firstArgmin_bvl_spec req)
  have h2 : firstArgmax (blockValuesList req) ≠ "" :=
    firstAttainsMax_ne_empty (firstArgmax_bvl_spec req)
  simp only [computeResult]
  rw [if_neg h1, if_neg h2]

lemma categoryOf_req7R : categoryOf req7 "R" = [ind7R] := rfl

lemma categoryOf_req7P : categoryOf req7 "P" = [ind7P] := rfl

lemma categoryOf_req7O : categoryOf req7 "O" = [ind7O] := rfl

lemma categoryOf_req7I : categoryOf req7 "I" = [ind7I] := rfl

lemma req7_weights : req7.block_weights = {} := rfl

lemma categoryOf_reqRoundR : categoryOf reqRound "R" = [indRoundR] := rfl

lemma categoryOf_reqRoundP : categoryOf reqRound "P" = [indRoundP] := rfl

lemma categoryOf_reqRoundO : categoryOf reqRound "O" = [] := rfl

lemma categoryOf_reqRoundI : categoryOf reqRound "I" = [] := rfl

lemma reqRound_weights :
    reqRound.block_weights = { alpha_R := 1, alpha_P := 1, alpha_O := 0, alpha_I := 0 } := rfl

lemma categoryOf_reqBigR : categoryOf reqBig "R" = [indBigR] := rfl

lemma categoryOf_reqBigP : categoryOf reqBig "P" = [] := rfl

lemma categoryOf_reqBigO : categoryOf reqBig "O" = [] := rfl

lemma categoryOf_reqBigI : categoryOf reqBig "I" = [] := rfl

lemma reqBig_weights :
    reqBig.block_weights = { alpha_R := 8, alpha_P := 0, alpha_O := 0, alpha_I := 0 } := rfl

lemma categoryOf_req9R : categoryOf req9 "R" = [ind9R] := rfl

lemma categoryOf_req9P : categoryOf req9 "P" = [] := rfl

lemma categoryOf_req9O : categoryOf req9 "O" = [] := rfl

lemma categoryOf_req9I : categoryOf req9 "I" = [] := rfl

lemma req9_weights :
    req9.block_weights = { alpha_R := 1, alpha_P := 0, alpha_O := 0, alpha_I := 0 } := rfl

lemma categoryOf_reqC2R : categoryOf reqC2 "R" = [indC2R1, indC2R2] := rfl

lemma categoryOf_reqC2P : categoryOf reqC2 "P" = [indC2P1] := rfl

lemma categoryOf_reqC2O : categoryOf reqC2 "O" = [] := rfl

lemma categoryOf_reqC2I : categoryOf reqC2 "I" = [] := rfl

lemma reqC2_weights : reqC2.block_weights = {} := rfl

lemma categoryOf_reqC6R : categoryOf reqC6 "R" = [indC6R] := rfl

lemma categoryOf_reqC6P : categoryOf reqC6 "P" = [indC6P] := rfl

lemma categoryOf_reqC6O : categoryOf reqC6 "O" = [indC6O] := rfl

lemma categoryOf_reqC6I : categoryOf reqC6 "I" = [indC6I] := rfl

lemma reqC6_weights : reqC6.block_weights = {} := rfl

lemma categoryOf_reqEmpty (c : String) : categoryOf reqEmpty c = [] := rfl

lemma reqEmpty_weights : reqEmpty.block_weights = {} := rfl

lemma computeResult_reqC2 : computeResult reqC2 = resC2 := by
  rw [computeResult_eq_mk]
  norm_num [resC2, totalRaw, blockValuesList, blockCodes, mkBlockIndex,
    categoryOf_reqC2R, categoryOf_reqC2P, categoryOf_reqC2O, categoryOf_reqC2I,
    blockIndexValue, weightSum, weightedNormSum, normMap, normalize,
    indC2R1, indC2R2, indC2P1, round3, round_eq, classify_level,
    firstArgmin, firstArgminAux, firstArgmax, firstArgmaxAux, reqC2_weights]
  exact ⟨rfl, rfl⟩

lemma computeResult_reqC6 : computeResult reqC6 = resC6 := by
  rw [computeResult_eq_mk]
  norm_num [resC6, totalRaw, blockValuesList, blockCodes, mkBlockIndex,
    categoryOf_reqC6R, categoryOf_reqC6P, categoryOf_reqC6O, categoryOf_reqC6I,
    blockIndexValue, weightSum, weightedNormSum, normMap, normalize,
    indC6R, indC6P, indC6O, indC6I, round3, round_eq, classify_level,
    firstArgmin, firstArgminAux, firstArgmax, firstArgmaxAux, reqC6_weights]
  exact ⟨rfl, rfl⟩

lemma computeResult_reqEmpty : computeResult reqEmpty = resEmpty := by
  rw [computeResult_eq_mk]
  norm_num [resEmpty, totalRaw, blockValuesList, blockCodes, mkBlockIndex,
    categoryOf_reqEmpty, blockIndexValue, weightSum, weightedNormSum, normMap,
    round3, round_eq, classify_level,
    firstArgmin, firstArgminAux, firstArgmax, firstArgmaxAux, reqEmpty_weights]
  exact ⟨rfl, rfl⟩

lemma computeResult_req7 : computeResult req7 = res7 := by
  rw [computeResult_eq_mk]
  norm_num [res7, totalRaw, blockValuesList, blockCodes, mkBlockIndex,
    categoryOf_req7R, categoryOf_req7P, categoryOf_req7O, categoryOf_req7I,
    blockIndexValue, weightSum, weightedNormSum, normMap, normalize,
    ind7R, ind7P, ind7O, ind7I, round3, round_eq, classify_level,
    firstArgmin, firstArgminAux, firstArgmax, firstArgmaxAux, req7_weights]
  exact ⟨rfl, rfl⟩

/-- C3: for every indicator with `max_value` strictly greater than
`min_value`, `normalize` returns the `[0,1]`-clamp of
`z = (value - min_value) / (max_value - min_value)` (inverted to `1 - z`
for a cost indicator); the result always lies in `[0,1]` even when the raw
value lies outside the declared bounds, and a cost indicator normalizes to
`1` at `value = min_value` and to `0` at `value = max_value`. -/
theorem C3_normalize_clamp_and_cost_endpoints (ind : Indicator)
    (h : ind.min_value < ind.max_value) :
    normalize ind =
      max 0 (min 1 (if ind.is_benefit then
          (ind.value - ind.min_value) / (ind.max_value - ind.min_value)
        else 1 - (ind.value - ind.min_value) / (ind.max_value - ind.min_value))) ∧
    0 ≤ normalize ind ∧ normalize ind ≤ 1 ∧
    (ind.is_benefit = false → ind.value = ind.min_value → normalize ind = 1) ∧
    (ind.is_benefit = false → ind.value = ind.max_value → normalize ind = 0) := by
  have hne : ind.max_value ≠ ind.min_value := ne_of_gt h
  have hd : ind.max_value - ind.min_value ≠ 0 := sub_ne_zero.mpr hne
  have hnz : normalize ind =
      max 0 (min 1 (if ind.is_benefit then
          (ind.value - ind.min_value) / (ind.max_value - ind.min_value)
        else 1 - (ind.value - ind.min_value) / (ind.max_value - ind.min_value))) := by
    unfold normalize
    rw [if_neg hne]
  refine ⟨hnz, ?_, ?_, ?_, ?_⟩
  · rw [hnz]; exact le_max_left 0 _
  · rw [hnz]; exact max_le zero_le_one (min_le_left 1 _)
  · intro hb hv
    rw [hnz, hv, sub_self, zero_div]
    simp [hb]
  · intro hb hv
    rw [hnz, hv, div_self hd]
    simp [hb]

/-- C3 witness: the concrete cost indicator `indCost` sits at its minimum
and normalizes to `1`. -/
theorem C3_normalize_clamp_and_cost_endpoints_witness :
    normalize indCost = 1 :=
  (C3_normalize_clamp_and_cost_endpoints indCost (by norm_num [indCost])).2.2.2.1 rfl rfl

/-- C5: the tier classifier maps any rational total to exactly one of the
four ordered tiers via lower-bound-inclusive half-open intervals: below
`0.25` is the first tier ("Past" = Low, including negatives), `[0.25, 0.5)`
the second ("O‘rtacha" = Medium), `[0.5, 0.75)` the third ("Yuqori" =
High), and `0.75` and above the fourth ("Juda yuqori" = Very High); in
particular `0.25` is second tier, `0.5` third, `0.75` fourth. -/
theorem C5_tier_boundaries (t : ℚ) :
    (classify_level t = "Past" ↔ t < 1/4) ∧
    (classify_level t = "O‘rtacha" ↔ 1/4 ≤ t ∧ t < 1/2) ∧
    (classify_level t = "Yuqori" ↔ 1/2 ≤ t ∧ t < 3/4) ∧
    (classify_level t = "Juda yuqori" ↔ 3/4 ≤ t) := by
  unfold classify_level
  split_ifs with h1 h2 h3
  · exact ⟨iff_of_true rfl h1,
      iff_of_false (by decide) (fun hx => by linarith [hx.1]),
      iff_of_false (by decide) (fun hx => by linarith [hx.1]),
      iff_of_false (by decide) (fun hx => by linarith)⟩
  · exact ⟨iff_of_false (by decide) h1,
      iff_of_true rfl ⟨not_lt.mp h1, h2⟩,
      iff_of_false (by decide) (fun hx => by linarith [hx.1]),
      iff_of_false (by decide) (fun hx => by linarith)⟩
  · exact ⟨iff_of_false (by decide) h1,
      iff_of_false (by decide) (fun hx => h2 hx.2),
      iff_of_true rfl ⟨not_lt.mp h2, h3⟩,
      iff_of_false (by decide) (fun hx => by linarith)⟩
  · exact ⟨iff_of_false (by decide) h1,
      iff_of_false (by decide) (fun hx => h2 hx.2),
      iff_of_false (by decide) (fun hx => h3 hx.2),
      iff_of_true rfl (not_lt.mp h3)⟩

/-- C5 witness: a total of exactly `0.25` classifies into the second tier. -/
theorem C5_tier_boundaries_witness : classify_level (1/4) = "O‘rtacha" :=
  ((C5_tier_boundaries (1/4)).2.1).mpr (by norm_num)

/-- C7: the end-to-end scenario — one benefit indicator per category with
bounds 0..100 and weight 1, values 80/20/50/0, category weights 0.25 each —
yields normalized values 0.8, 0.2, 0.5, 0.0, overall index 0.375, the
second tier, weakest category I and strongest category R. -/
theorem C7_end_to_end_scenario : evaluate req7 = Except.ok res7 := by
  rw [evaluate_eq_ok req7 (by decide)]
  exact congrArg Except.ok computeResult_req7

/-- C8: for every indicator whose `max_value` equals `min_value` — whatever
its polarity and raw value — `normalize` returns exactly `0`, with no
division by zero. -/
theorem C8_degenerate_bounds_yield_zero (ind : Indicator)
    (h : ind.max_value = ind.min_value) : normalize ind = 0 := by
  unfold normalize
  rw [if_pos h]

/-- C8 witness: the degenerate-bounds cost indicator at raw value 42
normalizes to `0`. -/
theorem C8_degenerate_bounds_yield_zero_witness :
    indDegenerate.max_value = indDegenerate.min_value ∧ normalize indDegenerate = 0 :=
  ⟨rfl, C8_degenerate_bounds_yield_zero indDegenerate rfl⟩

/-- C9: the tier label is derived from the rounded overall index: the
concrete request `req9` has a raw weighted total of `0.2496` — strictly
below `0.25` but at least `0.2495` — yet its result carries
`total_index = 0.25` and the second tier ("O‘rtacha" = Medium), not the
first. -/
theorem C9_tier_from_rounded_total :
    totalRaw req9 < 1/4 ∧ 2495/10000 ≤ totalRaw req9 ∧
    (evaluate req9).toOption.map (fun r => (r.total_index, r.level)) =
      some (1/4, some "O‘rtacha") := by
  have htot : totalRaw req9 = 156/625 := by
    norm_num [totalRaw, categoryOf_req9R, categoryOf_req9P, categoryOf_req9O,
      categoryOf_req9I, blockIndexValue, weightSum, weightedNormSum, normalize,
      ind9R, req9_weights]
  have hr3 : round3 (156/625) = 1/4 := by
    norm_num [round3, round_eq]
  refine ⟨by rw [htot]; norm_num, by rw [htot]; norm_num, ?_⟩
  rw [evaluate_eq_ok req9 (by decide), computeResult_eq_mk]
  simp only [Except.toOption, Option.map_some]
  rw [htot, hr3]
  norm_num [classify_level]

/-- C1 (counterexample): on `reqRound` the engine's overall index is
`0.667`, computed from the unrounded category index values, while the sum
of category weights times the ROUNDED (3-decimal) category index values —
what the claim asserts — rounds to `0.666`; the two disagree. -/
theorem C1_rounded_inputs_counterexample :
    (evaluate reqRound).toOption.map EvaluationResult.total_index = some (667/1000) ∧
    specTotalFromRounded reqRound = 666/1000 ∧
    (evaluate reqRound).toOption.map EvaluationResult.total_index ≠
      some (specTotalFromRounded reqRound) := by
  have hbR : blockIndexValue (categoryOf reqRound "R") = 1667/5000 := by
    norm_num [categoryOf_reqRoundR, blockIndexValue, weightSum, weightedNormSum,
      normalize, indRoundR]
  have hbP : blockIndexValue (categoryOf reqRound "P") = 1667/5000 := by
    norm_num [categoryOf_reqRoundP, blockIndexValue, weightSum, weightedNormSum,
      normalize, indRoundP]
  have hbO : blockIndexValue (categoryOf reqRound "O") = 0 := by
    norm_num [categoryOf_reqRoundO, blockIndexValue, weightSum, weightedNormSum]
  have hbI : blockIndexValue (categoryOf reqRound "I") = 0 := by
    norm_num [categoryOf_reqRoundI, blockIndexValue, weightSum, weightedNormSum]
  have htot : totalRaw reqRound = 1667/2500 := by
    simp only [totalRaw, reqRound_weights, hbR, hbP, hbO, hbI]
    norm_num
  have hcode : round3 (1667/2500) = 667/1000 := by
    norm_num [round3, round_eq]
  have hspec : specTotalFromRounded reqRound = 666/1000 := by
    simp only [specTotalFromRounded, reqRound_weights, hbR, hbP, hbO, hbI]
    norm_num [round3, round_eq]
  have hok : evaluate reqRound = Except.ok (computeResult reqRound) :=
    evaluate_eq_ok reqRound (by decide)
  have hmap : (evaluate reqRound).toOption.map EvaluationResult.total_index =
      some (667/1000) := by
    rw [hok, computeResult_eq_mk]
    simp only [Except.toOption, Option.map_some]
    rw [htot, hcode]
    rfl
  refine ⟨hmap, hspec, ?_⟩
  rw [hmap, hspec]
  intro hcontra
  exact absurd (Option.some.inj hcontra) (by norm_num)

/-- C1 (amended): for every request whose indicators all carry recognized
category codes, the overall index equals the weighted sum of the four
UNROUNDED category index values (the `block_values` the engine keeps before
emission rounding), with the sum rounded to 3 decimal places and no
clamping applied afterwards. -/
theorem C1_total_from_unrounded_indices (req : EvaluationRequest)
    (h : ∀ ind ∈ req.indicators, ind.block ∈ blockCodes) :
    (evaluate req).toOption.map EvaluationResult.total_index =
      some (round3 (totalRaw req)) := by
  rw [evaluate_eq_ok req h]
  rfl

/-- C1 witness: on `reqBig` the hypothesis holds, the amended equation
holds, and the resulting overall index is `2`, outside `[0,1]` — no clamp
is applied. -/
theorem C1_total_from_unrounded_indices_witness :
    (∀ ind ∈ reqBig.indicators, ind.block ∈ blockCodes) ∧
    (evaluate reqBig).toOption.map EvaluationResult.total_index =
      some (round3 (totalRaw reqBig)) ∧
    round3 (totalRaw reqBig) = 2 := by
  refine ⟨by decide, C1_total_from_unrounded_indices reqBig (by decide), ?_⟩
  have hbR : blockIndexValue (categoryOf reqBig "R") = 1/4 := by
    norm_num [categoryOf_reqBigR, blockIndexValue, weightSum, weightedNormSum,
      normalize, indBigR]
  have hbP : blockIndexValue (categoryOf reqBig "P") = 0 := by
    norm_num [categoryOf_reqBigP, blockIndexValue, weightSum, weightedNormSum]
  have hbO : blockIndexValue (categoryOf reqBig "O") = 0 := by
    norm_num [categoryOf_reqBigO, blockIndexValue, weightSum, weightedNormSum]
  have hbI : blockIndexValue (categoryOf reqBig "I") = 0 := by
    norm_num [categoryOf_reqBigI, blockIndexValue, weightSum, weightedNormSum]
  simp only [totalRaw, reqBig_weights, hbR, hbP, hbO, hbI]
  norm_num [round3, round_eq]

/-- C2: in every successful result, the emitted record for each of the four
categories carries, when the category's weight sum is strictly positive,
the value `Σ(z_k * w_k) / Σ(w_k)` rounded to 3 decimal places; exactly `0`
when the category is empty (with an empty mapping) and when the weight sum
is exactly `0`; and its mapping sends each contained indicator's identifier
to that indicator's normalized value. -/
theorem C2_category_index_cases (req : EvaluationRequest) (res : EvaluationResult)
    (h : evaluate req = Except.ok res) (code : String) (hc : code ∈ blockCodes) :
    ∃ b, b ∈ res.blocks ∧ b.block = code ∧
      (categoryOf req code = [] → b.value = 0 ∧ b.indicators = []) ∧
      (weightSum (categoryOf req code) = 0 → b.value = 0) ∧
      (0 < weightSum (categoryOf req code) →
        b.value = round3 (weightedNormSum (categoryOf req code) /
          weightSum (categoryOf req code))) ∧
      (((categoryOf req code).map Indicator.id).Nodup →
        ∀ ind ∈ categoryOf req code,
          b.indicators.lookup ind.id = some (normalize ind)) := by
  have hres := evaluate_ok_elim req res h
  subst hres
  refine ⟨mkBlockIndex req code, ?_, rfl, ?_, ?_, ?_, ?_⟩
  · show mkBlockIndex req code ∈ (computeResult req).blocks
    have hb : (computeResult req).blocks = blockCodes.map (mkBlockIndex req) := rfl
    rw [hb]
    exact List.mem_map_of_mem _ hc
  · intro hempty
    refine ⟨?_, ?_⟩
    · show round3 (blockIndexValue (categoryOf req code)) = 0
      rw [hempty]
      norm_num [blockIndexValue, weightSum, weightedNormSum, round3]
    · show normMap (categoryOf req code) = []
      rw [hempty]
      rfl
  · intro hz
    show round3 (blockIndexValue (categoryOf req code)) = 0
    unfold blockIndexValue
    rw [hz]
    norm_num [round3]
  · intro hpos
    show round3 (blockIndexValue (categoryOf req code)) =
      round3 (weightedNormSum (categoryOf req code) / weightSum (categoryOf req code))
    unfold blockIndexValue
    rw [if_pos hpos]
  · intro hnd ind hmem
    exact lookup_normMap _ hnd ind hmem

/-- C2 witness: on `reqC2` (R: weighted mean `2/3` → `0.667`; P: weight sum
`0`; O, I: empty) the category-index contract holds for category R. -/
theorem C2_category_index_cases_witness :
    evaluate reqC2 = Except.ok resC2 ∧
    ∃ b, b ∈ resC2.blocks ∧ b.block = "R" ∧
      (categoryOf reqC2 "R" = [] → b.value = 0 ∧ b.indicators = []) ∧
      (weightSum (categoryOf reqC2 "R") = 0 → b.value = 0) ∧
      (0 < weightSum (categoryOf reqC2 "R") →
        b.value = round3 (weightedNormSum (categoryOf reqC2 "R") /
          weightSum (categoryOf reqC2 "R"))) ∧
      (((categoryOf reqC2 "R").map Indicator.id).Nodup →
        ∀ ind ∈ categoryOf reqC2 "R",
          b.indicators.lookup ind.id = some (normalize ind)) := by
  have hok : evaluate reqC2 = Except.ok resC2 := by
    rw [evaluate_eq_ok reqC2 (by decide)]
    exact congrArg Except.ok computeResult_reqC2
  exact ⟨hok, C2_category_index_cases reqC2 resC2 hok "R" (by decide)⟩

/-- C4: `evaluate` succeeds exactly when every indicator's category code is
one of the four recognized values, and when it fails the error message
identifies the offending code; failure yields no result at all. -/
theorem C4_fail_iff_unrecognized_category (req : EvaluationRequest) :
    ((∃ r, evaluate req = Except.ok r) ↔
      ∀ ind ∈ req.indicators, ind.block ∈ blockCodes) ∧
    (∀ e, evaluate req = Except.error e →
      ∃ ind ∈ req.indicators, ind.block ∉ blockCodes ∧ e = badBlockMsg ind.block) :=
  ⟨evaluate_ok_iff req, fun e he => evaluate_error_elim req e he⟩

/-- C4 witness: `reqBad` (block code `"X"`) fails with the message naming
`"X"`, and the failure is traced to its offending indicator. -/
theorem C4_fail_iff_unrecognized_category_witness :
    ∃ ind ∈ reqBad.indicators, ind.block ∉ blockCodes ∧
      "Noma\x27lum blok kodi: X" = badBlockMsg ind.block :=
  (C4_fail_iff_unrecognized_category reqBad).2 "Noma\x27lum blok kodi: X" rfl

/-- C6: in every successful result, the weakest category is the first of
R, P, O, I attaining the minimum of the four (unrounded) category index
values — every earlier category is strictly larger — and the strongest is
the first attaining the maximum; ties resolve to the earliest in the fixed
order. -/
theorem C6_extremal_first_in_fixed_order (req : EvaluationRequest)
    (res : EvaluationResult) (h : evaluate req = Except.ok res) :
    ∃ cw cs, res.weakest_block = some cw ∧ res.strongest_block = some cs ∧
      firstAttainsMin (blockIndexValue (categoryOf req "R"))
        (blockIndexValue (categoryOf req "P")) (blockIndexValue (categoryOf req "O"))
        (blockIndexValue (categoryOf req "I")) cw ∧
      firstAttainsMax (blockIndexValue (categoryOf req "R"))
        (blockIndexValue (categoryOf req "P")) (blockIndexValue (categoryOf req "O"))
        (blockIndexValue (categoryOf req "I")) cs := by
  have hres := evaluate_ok_elim req res h
  subst hres
  rw [computeResult_eq_mk]
  exact ⟨_, _, rfl, rfl, firstArgmin_bvl_spec req, firstArgmax_bvl_spec req⟩

/-- C6 witness: on `reqC6`, where R and P tie for the minimum at `1/2`, the
weakest category resolves to R (the earlier of the tie) and the strongest
to I. -/
theorem C6_extremal_first_in_fixed_order_witness :
    evaluate reqC6 = Except.ok resC6 ∧
    ∃ cw cs, resC6.weakest_block = some cw ∧ resC6.strongest_block = some cs ∧
      firstAttainsMin (blockIndexValue (categoryOf reqC6 "R"))
        (blockIndexValue (categoryOf reqC6 "P")) (blockIndexValue (categoryOf reqC6 "O"))
        (blockIndexValue (categoryOf reqC6 "I")) cw ∧
      firstAttainsMax (blockIndexValue (categoryOf reqC6 "R"))
        (blockIndexValue (categoryOf reqC6 "P")) (blockIndexValue (categoryOf reqC6 "O"))
        (blockIndexValue (categoryOf reqC6 "I")) cs := by
  have hok : evaluate reqC6 = Except.ok resC6 := by
    rw [evaluate_eq_ok reqC6 (by decide)]
    exact congrArg Except.ok computeResult_reqC6
  exact ⟨hok, C6_extremal_first_in_fixed_order reqC6 resC6 hok⟩

/-- C10: in every successful result both extremal-category fields are
present (`some`, never `none`) and each names one of the four codes
R, P, O, I — the defensive empty-mapping branch of the source is
unreachable. -/
theorem C10_extremals_always_present (req : EvaluationRequest)
    (res : EvaluationResult) (h : evaluate req = Except.ok res) :
    ∃ cw, res.weakest_block = some cw ∧ cw ∈ blockCodes ∧
    ∃ cs, res.strongest_block = some cs ∧ cs ∈ blockCodes := by
  have hres := evaluate_ok_elim req res h
  subst hres
  rw [computeResult_eq_mk]
  exact ⟨_, rfl, firstAttainsMin_mem (firstArgmin_bvl_spec req), _, rfl,
    firstAttainsMax_mem (firstArgmax_bvl_spec req)⟩

/-- C10 witness: even the request with no indicators at all yields both
extremal fields populated (both resolve to R). -/
theorem C10_extremals_always_present_witness :
    evaluate reqEmpty = Except.ok resEmpty ∧
    ∃ cw, resEmpty.weakest_block = some cw ∧ cw ∈ blockCodes ∧
    ∃ cs, resEmpty.strongest_block = some cs ∧ cs ∈ blockCodes := by
  have hok : evaluate reqEmpty = Except.ok resEmpty := by
    rw [evaluate_eq_ok reqEmpty (by decide)]
    exact congrArg Except.ok computeResult_reqEmpty
  exact ⟨hok, C10_extremals_always_present reqEmpty resEmpty hok⟩

end Core
